import Mathlib

/-
Verification of the agentsmith persistent agent-memory library.

The Rust sources (src/trace.rs, src/history.rs, src/smart_agent.rs,
src/error.rs) are shallowly embedded below.  External effects are made
explicit:
  - the SQLite storage is a list of rows plus the bound session id;
  - the ambient UUID generator and wall clock are an explicit counter
    (the design notes of the specification themselves call for an
    injected identifier-generation capability);
  - timestamps are natural numbers, abstracting chrono DateTime values
    monotonically (RFC3339 text order agrees with chronological order);
  - the FTS5 relevance engine lives in the repository's migrations,
    which are not part of src/, and the specification declares the
    full-text engine an external collaborator, so it is modelled from
    the spec as a parameter returning matching rows in rank order;
  - the external generation capability of rig is a parameter;
  - serde_json values are modelled by an explicit JSON value type.
-/

namespace Agentsmith

/-- JSON values, embedding serde_json::Value (numbers abstracted to Int;
no claim performs numeric arithmetic on metadata values). -/
inductive Value where
  | null : Value
  | bool : Bool → Value
  | num : Int → Value
  | str : String → Value
  | arr : List Value → Value
  | obj : List (String × Value) → Value
deriving Repr

/-- Value.as_bool from serde_json: some b exactly on boolean values. -/
def Value.as_bool : Value → Option Bool
  | Value.bool b => some b
  | _ => none

/-- Metadata of a trace: the HashMap of String to serde_json Value,
embedded as an association list (lookup semantics below). -/
abbrev Metadata : Type := List (String × Value)

/-- HashMap.get: the value stored under a key, if any. -/
def mget (m : Metadata) (key : String) : Option Value :=
  (m.find? (fun p => p.1 == key)).map (fun p => p.2)

/-- Trace from src/trace.rs: one persisted turn. created_at is a Nat
timestamp (see header note). -/
structure Trace where
  id : String
  session_id : String
  role : String
  content : String
  metadata : Metadata
  created_at : Nat
  embedding : Option String
deriving Repr

/-- Trace::new, with the ambient UUID and clock made explicit arguments. -/
def Trace.new (id : String) (now : Nat)
    (session_id role content : String) : Trace :=
  { id := id, session_id := session_id, role := role, content := content,
    metadata := [], created_at := now, embedding := none }

/-- Trace::with_metadata: replaces the metadata mapping wholesale. -/
def Trace.with_metadata (t : Trace) (metadata : Metadata) : Trace :=
  { t with metadata := metadata }

/-- Trace::get_metadata. -/
def Trace.get_metadata (t : Trace) (key : String) : Option Value :=
  mget t.metadata key

/-- Trace::is_success:
metadata.get("success").and_then(as_bool).unwrap_or(true). -/
def Trace.is_success (t : Trace) : Bool :=
  ((mget t.metadata "success").bind Value.as_bool).getD true

/-- Error enum from src/error.rs (payloads abstracted to message strings). -/
inductive Error where
  | Database : String → Error
  | Io : String → Error
  | Json : String → Error
  | Migration : String → Error
  | Rig : String → Error
  | Other : String → Error
deriving Repr, DecidableEq

/-- rig Message: role plus content. -/
structure Message where
  role : String
  content : String
deriving Repr, DecidableEq

/-- AgentHistory from src/history.rs: the SQLite pool is embedded as the
list of rows of the traces table, in insertion order, together with the
session id the instance is bound to; clock models the ambient UUID
generator and wall clock consumed by log_turn. -/
structure AgentHistory where
  rows : List Trace
  session_id : String
  clock : Nat
deriving Repr

/-- Insertion step of the descending sort on created_at, modelling the
ORDER BY created_at DESC applied by the storage engine. -/
def insertDesc (t : Trace) : List Trace → List Trace
  | [] => [t]
  | x :: xs =>
    if x.created_at ≤ t.created_at then t :: x :: xs
    else x :: insertDesc t xs

/-- Rows sorted by created_at descending (some order on ties, which the
storage engine leaves unspecified). -/
def sortDesc : List Trace → List Trace
  | [] => []
  | x :: xs => insertDesc x (sortDesc xs)

/-- The rows of the traces table belonging to the active session
(WHERE session_id = ?). -/
def AgentHistory.sessionRows (h : AgentHistory) : List Trace :=
  h.rows.filter (fun t => t.session_id == h.session_id)

/-- AgentHistory::recent: session rows ordered by created_at DESC,
LIMIT n, then reversed into chronological order. -/
def AgentHistory.recent (h : AgentHistory) (n : Nat) : List Trace :=
  ((sortDesc h.sessionRows).take n).reverse

/-- Modelled from the spec: the ranked full-text match of the storage
engine (the FTS5 virtual table and its triggers live in the migrations
directory, which is not under src/, and the spec declares the engine an
external collaborator).  Given a query and the rows of the store it
returns the matching rows ordered by rank, ties broken by
created_at descending. -/
abbrev Engine : Type := String → List Trace → List Trace

/-- AgentHistory::search: empty query falls back to recent; otherwise
fetch the ranked matches LIMITed to limit rows, then keep a row unless
success_only is set and the row is not successful. -/
def AgentHistory.search (h : AgentHistory) (engine : Engine)
    (query : String) (limit : Nat) (success_only : Bool) : List Trace :=
  if query = "" then h.recent limit
  else
    ((engine query h.rows).take limit).filter
      (fun t => !success_only || t.is_success)

/-- AgentHistory::log_trace: INSERT INTO traces, appending one row. -/
def AgentHistory.log_trace (h : AgentHistory) (t : Trace) : AgentHistory :=
  { h with rows := h.rows ++ [t] }

/-- Fresh trace id produced by the injected identifier generator. -/
def freshId (clock : Nat) : String :=
  "trace-" ++ toString clock

/-- AgentHistory::log_turn: builds a Trace from the message and the
active session, attaches the metadata, persists it, and returns it;
advances the ambient clock. -/
def AgentHistory.log_turn (h : AgentHistory) (m : Message)
    (metadata : Metadata) : AgentHistory × Trace :=
  let t := (Trace.new (freshId h.clock) h.clock h.session_id
      m.role m.content).with_metadata metadata
  ({ h.log_trace t with clock := h.clock + 1 }, t)

/-- A line is skipped by import_jsonl when it is empty after trimming
whitespace; trim-then-is_empty is embedded as all-whitespace. -/
def isBlankLine (s : String) : Bool :=
  s.data.all Char.isWhitespace

/-- Loop of AgentHistory::import_jsonl over the lines of the file, with
the running count; a parse failure aborts, keeping rows already
inserted.  The serde_json line deserializer is the parse argument. -/
def AgentHistory.import_lines (parse : String → Option Trace)
    (h : AgentHistory) (count : Nat) :
    List String → AgentHistory × Except Error Nat
  | [] => (h, Except.ok count)
  | line :: rest =>
    if isBlankLine line then h.import_lines parse count rest
    else
      match parse line with
      | none => (h, Except.error (Error.Json line))
      | some t => (h.log_trace t).import_lines parse (count + 1) rest

/-- AgentHistory::import_jsonl on the lines of the file. -/
def AgentHistory.import_jsonl (parse : String → Option Trace)
    (h : AgentHistory) (lines : List String) :
    AgentHistory × Except Error Nat :=
  h.import_lines parse 0 lines

/-- usize::is_multiple_of from the Rust standard library: guarded on a
zero divisor instead of faulting. -/
def is_multiple_of (n m : Nat) : Bool :=
  match m with
  | 0 => n == 0
  | _ => n % m == 0

/-- SmartAgent from src/smart_agent.rs; the wrapped rig agent is kept
outside the state and passed to chat as the generation capability. -/
structure SmartAgent where
  history : AgentHistory
  recall_top_k : Nat
  summarize_every : Nat
  turn_count : Nat
deriving Repr

/-- SmartAgent::new with its defaults. -/
def SmartAgent.new (history : AgentHistory) : SmartAgent :=
  { history := history, recall_top_k := 4, summarize_every := 20,
    turn_count := 0 }

/-- SmartAgent::with_recall_top_k. -/
def SmartAgent.with_recall_top_k (a : SmartAgent) (k : Nat) : SmartAgent :=
  { a with recall_top_k := k }

/-- SmartAgent::with_summarize_every. -/
def SmartAgent.with_summarize_every (a : SmartAgent) (n : Nat) : SmartAgent :=
  { a with summarize_every := n }

/-- One line of the recall context block: index, timestamp, role,
content (the chrono format call is abstracted to toString). -/
def renderRecall (i : Nat) (t : Trace) : String :=
  toString (i + 1) ++ ". [" ++ toString t.created_at ++ "] " ++
    t.role ++ ": " ++ t.content ++ "\n"

/-- The context messages assembled by chat step 2: one system message
listing the recalled traces, or nothing when none were found. -/
def contextMessages (relevant : List Trace) : List Message :=
  if relevant.isEmpty then []
  else
    [{ role := "system",
       content := "Relevant past experiences:\n\n" ++
         String.join ((relevant.enum).map (fun p => renderRecall p.1 p.2)) }]

/-- The metadata attached to the user turn in chat step 3. -/
def userTurnMetadata (relevant : List Trace) : Metadata :=
  [("recalled_traces", Value.num (Int.ofNat relevant.length))]

/-- The metadata attached to the assistant turn in chat step 5. -/
def assistantTurnMetadata (duration_ms : Int) : Metadata :=
  [("duration_ms", Value.num duration_ms),
   ("success", Value.bool true),
   ("tokens_used", Value.null)]

/-- SmartAgent::chat.  The external collaborators are explicit: the
full-text engine, the generation capability gen (errors already
rendered to strings, as the code wraps them with Error::Rig), the
summarize_session effect on the store (its Except result is the value
the code discards), and the measured wall-clock duration. -/
def SmartAgent.chat (a : SmartAgent) (engine : Engine)
    (gen : String → List Message → Except String String)
    (summarizer : AgentHistory → AgentHistory × Except String String)
    (duration_ms : Int) (user_input : String) :
    SmartAgent × Except Error String :=
  let relevant := a.history.search engine user_input a.recall_top_k false
  let ctx := contextMessages relevant
  let h1 := (a.history.log_turn { role := "user", content := user_input }
      (userTurnMetadata relevant)).1
  match gen user_input ctx with
  | Except.error e => ({ a with history := h1 }, Except.error (Error.Rig e))
  | Except.ok response =>
    let h2 := (h1.log_turn { role := "assistant", content := response }
        (assistantTurnMetadata duration_ms)).1
    let a1 := { a with history := h2, turn_count := a.turn_count + 1 }
    if is_multiple_of a1.turn_count a1.summarize_every then
      ({ a1 with history := (summarizer a1.history).1 }, Except.ok response)
    else
      (a1, Except.ok response)

/-- String form of a JSON value component, for fromJson. -/
def Value.asStr : Value → Option String
  | Value.str s => some s
  | _ => none

/-- Nat form of a JSON value component, for fromJson. -/
def Value.asNat : Value → Option Nat
  | Value.num (Int.ofNat n) => some n
  | _ => none

/-- Field lookup in a serialized JSON object. -/
def jget (fields : List (String × Value)) (key : String) : Option Value :=
  (fields.find? (fun p => p.1 == key)).map (fun p => p.2)

/-- Whether a serialized JSON object carries a field of the given name. -/
def objHasKey (v : Value) (key : String) : Bool :=
  match v with
  | Value.obj fields => fields.any (fun p => p.1 == key)
  | _ => false

/-- Serde serialization of a Trace to its JSON record: fields in
declaration order, embedding omitted entirely when absent
(skip_serializing_if), the timestamp abstracted per the header note. -/
def Trace.toJson (t : Trace) : Value :=
  Value.obj
    ([("id", Value.str t.id),
      ("session_id", Value.str t.session_id),
      ("role", Value.str t.role),
      ("content", Value.str t.content),
      ("metadata", Value.obj t.metadata),
      ("created_at", Value.num (Int.ofNat t.created_at))] ++
     (match t.embedding with
      | some e => [("embedding", Value.str e)]
      | none => []))

/-- Serde deserialization of a Trace from a JSON record: fields located
by name, metadata defaulting to the empty map when absent
(serde default), embedding an Option with its implicit None default. -/
def Trace.fromJson : Value → Option Trace
  | Value.obj fields => do
    let id ← (jget fields "id").bind Value.asStr
    let session_id ← (jget fields "session_id").bind Value.asStr
    let role ← (jget fields "role").bind Value.asStr
    let content ← (jget fields "content").bind Value.asStr
    let metadata ←
      (match jget fields "metadata" with
       | none => some ([] : Metadata)
       | some (Value.obj m) => some m
       | some _ => none)
    let created_at ← (jget fields "created_at").bind Value.asNat
    let embedding ←
      (match jget fields "embedding" with
       | none => some (none : Option String)
       | some Value.null => some none
       | some (Value.str s) => some (some s)
       | some _ => none)
    some { id := id, session_id := session_id, role := role,
           content := content, metadata := metadata,
           created_at := created_at, embedding := embedding }
  | _ => none

/-- Accumulator step for the token split of demoEngine. -/
def wordsAux : List Char → List Char → List String
  | [], acc => if acc.isEmpty then [] else [String.mk acc.reverse]
  | c :: cs, acc =>
    if c = ' ' then
      (if acc.isEmpty then wordsAux cs []
       else String.mk acc.reverse :: wordsAux cs [])
    else wordsAux cs (c :: acc)

/-- Space-separated tokens of a string. -/
def words (s : String) : List String :=
  wordsAux s.data []

/-- Modelled from the spec: one concrete instance of the external
ranked full-text engine, used to exhibit scenarios — a row matches when
the query appears among the tokens of its content, and rank order is
taken to be the row order of the store. -/
def demoEngine : Engine :=
  fun query rows => rows.filter (fun t => (words t.content).contains query)

/-- Demo trace: an unsuccessful turn mentioning foo. -/
def demoT1 : Trace :=
  { id := "t1", session_id := "s1", role := "user", content := "foo bar",
    metadata := [("success", Value.bool false)], created_at := 0,
    embedding := none }

/-- Demo trace: a successful turn (no success key) mentioning foo. -/
def demoT2 : Trace :=
  { id := "t2", session_id := "s1", role := "assistant",
    content := "foo baz", metadata := [], created_at := 1,
    embedding := none }

/-- Demo store holding the two demo traces, bound to session s1. -/
def demoHistory : AgentHistory :=
  { rows := [demoT1, demoT2], session_id := "s1", clock := 2 }

/-- The traces inserted by a successful import: the parses of the
non-blank lines. -/
def importInserted (parse : String → Option Trace)
    (lines : List String) : List Trace :=
  (lines.filter (fun l => !isBlankLine l)).filterMap parse

/-- The user-turn trace persisted by chat step 3. -/
def chatUserTrace (a : SmartAgent) (engine : Engine) (input : String) :
    Trace :=
  (Trace.new (freshId a.history.clock) a.history.clock
      a.history.session_id "user" input).with_metadata
    (userTurnMetadata (a.history.search engine input a.recall_top_k false))

/-- The history after both log writes of a successful chat turn. -/
def chatHistoryAfterLogs (a : SmartAgent) (engine : Engine)
    (input r : String) (dur : Int) : AgentHistory :=
  ((a.history.log_turn { role := "user", content := input }
      (userTurnMetadata
        (a.history.search engine input a.recall_top_k false))).1.log_turn
    { role := "assistant", content := r } (assistantTurnMetadata dur)).1

/-- A JSONL parser used to exhibit concrete import runs. -/
def demoParse (s : String) : Option Trace :=
  if s = "one" then some demoT1
  else if s = "two" then some demoT2
  else none

/-- Empty store bound to session s1, before the cross-session write. -/
def crossStore1 : AgentHistory :=
  { rows := [], session_id := "s1", clock := 0 }

/-- One turn written through the s1-bound store. -/
def crossWrite : AgentHistory × Trace :=
  crossStore1.log_turn { role := "user", content := "hello world" } []

/-- A second store over the same rows, bound to session s2. -/
def crossStore2 : AgentHistory :=
  { rows := crossWrite.1.rows, session_id := "s2", clock := 0 }

theorem insertDesc_perm (t : Trace) (l : List Trace) :
    (insertDesc t l).Perm (t :: l) := by
  induction l with
  | nil => simp [insertDesc]
  | cons x xs ih =>
    by_cases h : x.created_at ≤ t.created_at
    · simp [insertDesc, h]
    · simp only [insertDesc, if_neg h]
      exact (ih.cons x).trans (List.Perm.swap t x xs)

theorem sortDesc_perm (l : List Trace) : (sortDesc l).Perm l := by
  induction l with
  | nil => simp [sortDesc]
  | cons x xs ih =>
    exact (insertDesc_perm x (sortDesc xs)).trans (ih.cons x)

theorem insertDesc_pairwise {t : Trace} {l : List Trace}
    (h : l.Pairwise (fun a b => b.created_at ≤ a.created_at)) :
    (insertDesc t l).Pairwise (fun a b => b.created_at ≤ a.created_at) := by
  induction l with
  | nil => simp [insertDesc]
  | cons x xs ih =>
    rcases List.pairwise_cons.1 h with ⟨hx, hxs⟩
    by_cases hc : x.created_at ≤ t.created_at
    · simp only [insertDesc, if_pos hc]
      refine List.pairwise_cons.2 ⟨?_, h⟩
      intro b hb
      rcases List.mem_cons.1 hb with hb | hb
      · exact hb ▸ hc
      · exact le_trans (hx b hb) hc
    · simp only [insertDesc, if_neg hc]
      refine List.pairwise_cons.2 ⟨?_, ih hxs⟩
      intro b hb
      have hb2 : b ∈ t :: xs := (insertDesc_perm t xs).mem_iff.1 hb
      rcases List.mem_cons.1 hb2 with hb2 | hb2
      · exact hb2 ▸ Nat.le_of_not_le hc
      · exact hx b hb2

theorem sortDesc_pairwise (l : List Trace) :
    (sortDesc l).Pairwise (fun a b => b.created_at ≤ a.created_at) := by
  induction l with
  | nil => simp [sortDesc]
  | cons x xs ih => exact insertDesc_pairwise ih

theorem mget_eq_some_iff {m : Metadata}
    (hnd : (m.map Prod.fst).Nodup) {k : String} {v : Value} :
    mget m k = some v ↔ (k, v) ∈ m := by
  constructor
  · intro hv
    rcases Option.map_eq_some'.1 hv with ⟨p, hfind, hp2⟩
    have hpm : p ∈ m := List.mem_of_find?_eq_some hfind
    have hpk : p.1 = k := by
      have := List.find?_some hfind
      simpa using this
    have : p = (k, v) := by
      cases p
      simp only at hpk hp2
      simp [hpk, hp2]
    exact this ▸ hpm
  · intro hv
    have hsome : (m.find? (fun p => p.1 == k)).isSome :=
      List.find?_isSome.2 ⟨(k, v), hv, by simp⟩
    rcases Option.isSome_iff_exists.1 hsome with ⟨p, hfind⟩
    have hpm : p ∈ m := List.mem_of_find?_eq_some hfind
    have hpk : p.1 = k := by
      have := List.find?_some hfind
      simpa using this
    have hpe : p = (k, v) :=
      List.inj_on_of_nodup_map hnd hpm hv (by simpa using hpk)
    simp [mget, hfind, hpe]

theorem mget_perm {m1 m2 : Metadata} (hp : m1.Perm m2)
    (hnd : (m1.map Prod.fst).Nodup) (k : String) :
    mget m1 k = mget m2 k := by
  have hnd2 : (m2.map Prod.fst).Nodup := (hp.map Prod.fst).nodup hnd
  cases hv1 : mget m1 k with
  | some v =>
    have : (k, v) ∈ m2 := hp.mem_iff.1 ((mget_eq_some_iff hnd).1 hv1)
    exact ((mget_eq_some_iff hnd2).2 this).symm
  | none =>
    cases hv2 : mget m2 k with
    | none => rfl
    | some v =>
      have : (k, v) ∈ m1 := hp.mem_iff.2 ((mget_eq_some_iff hnd2).1 hv2)
      rw [(mget_eq_some_iff hnd).2 this] at hv1
      exact absurd hv1 (by simp)

theorem import_lines_ok (parse : String → Option Trace)
    (lines : List String) :
    ∀ (h : AgentHistory) (count : Nat),
    (∀ l ∈ lines, isBlankLine l = false → (parse l).isSome) →
    h.import_lines parse count lines
      = ({ h with rows := h.rows ++ importInserted parse lines },
         Except.ok (count + (importInserted parse lines).length)) := by
  induction lines with
  | nil =>
    intro h count _
    simp [AgentHistory.import_lines, importInserted]
  | cons line rest ih =>
    intro h count hall
    by_cases hb : isBlankLine line = true
    · have hskip : importInserted parse (line :: rest)
          = importInserted parse rest := by
        simp [importInserted, hb]
      rw [hskip]
      simp only [AgentHistory.import_lines, hb, if_pos]
      exact ih h count (fun l hl => hall l (List.mem_cons_of_mem _ hl))
    · have hbf : isBlankLine line = false := by simpa using hb
      have hsome := hall line (List.mem_cons_self line rest) hbf
      rcases Option.isSome_iff_exists.1 hsome with ⟨t, ht⟩
      have hins : importInserted parse (line :: rest)
          = t :: importInserted parse rest := by
        simp [importInserted, hbf, ht]
      rw [hins]
      simp only [AgentHistory.import_lines, hbf, Bool.false_eq_true,
        if_false, ht]
      rw [ih (h.log_trace t) (count + 1)
        (fun l hl => hall l (List.mem_cons_of_mem _ hl))]
      refine congrArg₂ Prod.mk ?_ ?_
      · simp [AgentHistory.log_trace, List.append_assoc]
      · exact congrArg Except.ok (by simp; omega)

theorem import_lines_err (parse : String → Option Trace)
    (pre : List String) (bad : String) (post : List String)
    (hbad : isBlankLine bad = false) (hpb : parse bad = none) :
    ∀ (h : AgentHistory) (count : Nat),
    (∀ l ∈ pre, isBlankLine l = false → (parse l).isSome) →
    h.import_lines parse count (pre ++ bad :: post)
      = ({ h with rows := h.rows ++ importInserted parse pre },
         Except.error (Error.Json bad)) := by
  induction pre with
  | nil =>
    intro h count _
    simp [AgentHistory.import_lines, hbad, hpb, importInserted]
  | cons line rest ih =>
    intro h count hall
    by_cases hb : isBlankLine line = true
    · have hskip : importInserted parse (line :: rest)
          = importInserted parse rest := by
        simp [importInserted, hb]
      rw [hskip, List.cons_append]
      simp only [AgentHistory.import_lines, hb, if_pos]
      exact ih h count (fun l hl => hall l (List.mem_cons_of_mem _ hl))
    · have hbf : isBlankLine line = false := by simpa using hb
      have hsome := hall line (List.mem_cons_self line rest) hbf
      rcases Option.isSome_iff_exists.1 hsome with ⟨t, ht⟩
      have hins : importInserted parse (line :: rest)
          = t :: importInserted parse rest := by
        simp [importInserted, hbf, ht]
      rw [hins, List.cons_append]
      simp only [AgentHistory.import_lines, hbf, Bool.false_eq_true,
        if_false, ht]
      rw [ih (h.log_trace t) (count + 1)
        (fun l hl => hall l (List.mem_cons_of_mem _ hl))]
      refine congrArg₂ Prod.mk ?_ rfl
      simp [AgentHistory.log_trace, List.append_assoc]

/-- Claim C6: import_jsonl skips lines blank after trimming, inserts
every other line verbatim through the plain insertion path (the stored
rows are exactly the parsed traces, so id, session_id and created_at
are kept as parsed, with no active-session or metadata stamping), and
returns the count of inserted lines on success; when a non-blank line
fails to parse the call fails with a parse error while the traces
inserted from earlier lines remain in the store. -/
theorem import_jsonl_spec :
    (∀ (parse : String → Option Trace) (h : AgentHistory)
        (lines : List String),
      (∀ l ∈ lines, isBlankLine l = false → (parse l).isSome) →
        h.import_jsonl parse lines
          = ({ h with rows := h.rows ++ importInserted parse lines },
             Except.ok (importInserted parse lines).length)) ∧
    (∀ (parse : String → Option Trace) (h : AgentHistory)
        (pre : List String) (bad : String) (post : List String),
      (∀ l ∈ pre, isBlankLine l = false → (parse l).isSome) →
      isBlankLine bad = false → parse bad = none →
        h.import_jsonl parse (pre ++ bad :: post)
          = ({ h with rows := h.rows ++ importInserted parse pre },
             Except.error (Error.Json bad))) := by
  constructor
  · intro parse h lines hall
    simpa using import_lines_ok parse lines h 0 hall
  · intro parse h pre bad post hall hbad hpb
    exact import_lines_err parse pre bad post hbad hpb h 0 hall

/-- Claim C6 witness: a concrete import of a good line, a blank line
and a malformed line fails with the parse error while keeping the trace
inserted from the good line. -/
theorem import_jsonl_spec_witness :
    AgentHistory.import_jsonl demoParse
        { rows := [], session_id := "s", clock := 0 }
        (["one", " "] ++ "bad" :: [])
      = ({ rows := [] ++ importInserted demoParse ["one", " "],
           session_id := "s", clock := 0 },
         Except.error (Error.Json "bad")) :=
  import_jsonl_spec.2 demoParse
    { rows := [], session_id := "s", clock := 0 } ["one", " "] "bad" []
    (by decide) (by decide) rfl

/-- Claim C1: for a non-empty query, search fetches at most limit rows
in rank order from the engine and only then applies the success filter,
so with success_only the call can return fewer than limit results even
though more successful matches exist beyond the fetched window; in the
concrete scenario, limit 1 with two matching traces whose higher-ranked
one is unsuccessful yields the empty result instead of the successful
match. -/
theorem search_filter_after_limit :
    (∀ (h : AgentHistory) (engine : Engine) (q : String) (limit : Nat),
      q ≠ "" →
        h.search engine q limit false = (engine q h.rows).take limit ∧
        h.search engine q limit true
          = (h.search engine q limit false).filter
              (fun t => t.is_success) ∧
        (h.search engine q limit true).length ≤ limit) ∧
    demoEngine "foo" demoHistory.rows = [demoT1, demoT2] ∧
    demoT1.is_success = false ∧
    demoT2.is_success = true ∧
    demoHistory.search demoEngine "foo" 1 true = [] ∧
    demoHistory.search demoEngine "foo" 2 true = [demoT2] := by
  refine ⟨?_, rfl, rfl, rfl, rfl, rfl⟩
  intro h engine q limit hq
  have h1 : h.search engine q limit false = (engine q h.rows).take limit := by
    simp [AgentHistory.search, hq]
  have h2 : h.search engine q limit true
      = ((engine q h.rows).take limit).filter (fun t => t.is_success) := by
    simp [AgentHistory.search, hq]
  refine ⟨h1, by rw [h2, h1], ?_⟩
  rw [h2]
  refine le_trans (List.length_filter_le _ _) ?_
  rw [List.length_take]
  exact Nat.min_le_left _ _

/-- Claim C1 witness: the universal part applied at the concrete store,
engine, query foo and limit 1. -/
theorem search_filter_after_limit_witness :
    demoHistory.search demoEngine "foo" 1 false
      = (demoEngine "foo" demoHistory.rows).take 1 :=
  (search_filter_after_limit.1 demoHistory demoEngine "foo" 1
    (by decide)).1

/-- Claim C2: search with the empty query returns exactly recent of the
same limit, for every value of success_only (the recency fallback
ignores the success filter). -/
theorem search_empty_query_eq_recent :
    ∀ (h : AgentHistory) (engine : Engine) (limit : Nat)
      (success_only : Bool),
      h.search engine "" limit success_only = h.recent limit := by
  intro h engine limit b
  simp [AgentHistory.search]

/-- Claim C3: is_success is true unless the metadata carries the
success key with the boolean value false; absence of the key, a true
boolean, or a non-boolean value all yield true. -/
theorem is_success_default_spec :
    ∀ t : Trace,
      (t.get_metadata "success" = none → t.is_success = true) ∧
      (t.get_metadata "success" = some (Value.bool true) →
        t.is_success = true) ∧
      (t.get_metadata "success" = some (Value.bool false) →
        t.is_success = false) ∧
      (∀ v, t.get_metadata "success" = some v →
        Value.as_bool v = none → t.is_success = true) := by
  intro t
  refine ⟨fun h => ?_, fun h => ?_, fun h => ?_, fun v h hv => ?_⟩ <;>
    simp only [Trace.get_metadata] at h
  · simp [Trace.is_success, h, Value.as_bool]
  · simp [Trace.is_success, h, Value.as_bool]
  · simp [Trace.is_success, h, Value.as_bool]
  · simp [Trace.is_success, h, hv]

/-- Claim C3 witness: the explicit-false and absent-key cases evaluated
on the demo traces. -/
theorem is_success_default_spec_witness :
    demoT1.is_success = false ∧ demoT2.is_success = true :=
  ⟨(is_success_default_spec demoT1).2.2.1 rfl,
   (is_success_default_spec demoT2).1 rfl⟩

/-- Claim C4: recent n is the take of a descending-by-creation ordering
of the session rows, reversed, hence in ascending chronological order
and of length min n (number of session rows); recent 0 is empty for
every store. -/
theorem recent_chronology_spec :
    (∀ h : AgentHistory, h.recent 0 = []) ∧
    (∀ (h : AgentHistory) (n : Nat),
      (∃ d : List Trace, d.Perm h.sessionRows ∧
         d.Pairwise (fun a b => b.created_at ≤ a.created_at) ∧
         h.recent n = (d.take n).reverse) ∧
      (h.recent n).Pairwise (fun a b => a.created_at ≤ b.created_at) ∧
      (h.recent n).length = min n h.sessionRows.length) := by
  constructor
  · intro h
    rfl
  · intro h n
    refine ⟨⟨sortDesc h.sessionRows, sortDesc_perm _,
      sortDesc_pairwise _, rfl⟩, ?_, ?_⟩
    · have hp : ((sortDesc h.sessionRows).take n).Pairwise
          (fun a b => b.created_at ≤ a.created_at) :=
        (sortDesc_pairwise _).sublist (List.take_sublist _ _)
      exact List.pairwise_reverse.2 hp
    · have hl : (sortDesc h.sessionRows).length = h.sessionRows.length :=
        (sortDesc_perm _).length_eq
      simp [AgentHistory.recent, List.length_take, hl]

/-- Claim C5: recent only returns traces of the active session, while
search with a non-empty query is independent of the bound session and
spans the whole store; concretely, a turn written through the s1-bound
store never shows in the s2-bound recent over the same rows but is
returned by the s2-bound search on a matching query. -/
theorem session_scoping_spec :
    (∀ (h : AgentHistory) (n : Nat) (t : Trace),
      t ∈ h.recent n → t.session_id = h.session_id) ∧
    (∀ (engine : Engine) (rows : List Trace) (s1 s2 : String)
        (c1 c2 : Nat) (q : String) (limit : Nat) (b : Bool),
      q ≠ "" →
        AgentHistory.search ⟨rows, s1, c1⟩ engine q limit b
          = AgentHistory.search ⟨rows, s2, c2⟩ engine q limit b) ∧
    (∀ n, crossWrite.2 ∉ crossStore2.recent n) ∧
    crossStore2.search demoEngine "hello" 10 false = [crossWrite.2] ∧
    crossWrite.2.session_id = "s1" ∧ crossStore2.session_id = "s2" := by
  refine ⟨?_, ?_, ?_, rfl, rfl, rfl⟩
  · intro h n t ht
    have h1 : t ∈ (sortDesc h.sessionRows).take n := List.mem_reverse.1 ht
    have h2 : t ∈ sortDesc h.sessionRows :=
      (List.take_sublist _ _).subset h1
    have h3 : t ∈ h.sessionRows := (sortDesc_perm _).mem_iff.1 h2
    have h4 := List.mem_filter.1 h3
    simpa using h4.2
  · intro engine rows s1 s2 c1 c2 q limit b hq
    simp [AgentHistory.search, hq]
  · intro n
    have hsr : crossStore2.sessionRows = [] := rfl
    simp [AgentHistory.recent, hsr, sortDesc]

/-- Claim C5 witness: the session-scoping part applied to a trace of
the demo store found in its recent output. -/
theorem session_scoping_spec_witness :
    demoT1.session_id = demoHistory.session_id :=
  session_scoping_spec.1 demoHistory 2 demoT1
    (by simp [show demoHistory.recent 2 = [demoT1, demoT2] from rfl])

/-- Claim C7: when the generation capability fails, chat has already
persisted the user turn through log_turn with metadata recording the
number of recalled traces — the store grows by exactly that one
user-role trace bound to the active session, no assistant trace is
logged, and the call reports the generation error. -/
theorem chat_logs_user_before_generation :
    ∀ (a : SmartAgent) (engine : Engine)
      (gen : String → List Message → Except String String)
      (summarizer : AgentHistory → AgentHistory × Except String String)
      (dur : Int) (input e : String),
      (∀ ctx, gen input ctx = Except.error e) →
        (a.chat engine gen summarizer dur input).2
            = Except.error (Error.Rig e) ∧
        (a.chat engine gen summarizer dur input).1.history.rows
            = a.history.rows ++ [chatUserTrace a engine input] ∧
        (chatUserTrace a engine input).role = "user" ∧
        (chatUserTrace a engine input).content = input ∧
        (chatUserTrace a engine input).session_id
            = a.history.session_id ∧
        (chatUserTrace a engine input).get_metadata "recalled_traces"
            = some (Value.num (Int.ofNat
                (a.history.search engine input
                  a.recall_top_k false).length)) ∧
        (a.chat engine gen summarizer dur input).1.turn_count
            = a.turn_count := by
  intro a engine gen summarizer dur input e hgen
  have hc : a.chat engine gen summarizer dur input
      = ({ a with history := (a.history.log_turn
            { role := "user", content := input }
            (userTurnMetadata (a.history.search engine input
              a.recall_top_k false))).1 },
         Except.error (Error.Rig e)) := by
    simp [SmartAgent.chat, hgen]
  refine ⟨by rw [hc], ?_, rfl, rfl, rfl, rfl, by rw [hc]⟩
  rw [hc]
  simp [AgentHistory.log_turn, AgentHistory.log_trace, chatUserTrace]

/-- Claim C7 witness: a concrete chat whose generation fails reports
the wrapped generation error. -/
theorem chat_logs_user_before_generation_witness :
    ((SmartAgent.new demoHistory).chat demoEngine
        (fun _ _ => Except.error "boom")
        (fun h => (h, Except.ok "")) 0 "hi").2
      = Except.error (Error.Rig "boom") :=
  (chat_logs_user_before_generation (SmartAgent.new demoHistory)
    demoEngine (fun _ _ => Except.error "boom")
    (fun h => (h, Except.ok "")) 0 "hi" "boom" (fun _ => rfl)).1

/-- Claim C8: on a successful generation the turn counter advances by
one, and whenever it is an exact multiple of summarize_every the
summarization is invoked on the post-log store purely as a side
effect — whatever the summarizer returns, including any failure, chat
still returns the generated reply successfully. -/
theorem chat_summarize_fire_and_forget :
    ∀ (a : SmartAgent) (engine : Engine)
      (gen : String → List Message → Except String String)
      (summarizer : AgentHistory → AgentHistory × Except String String)
      (dur : Int) (input r : String),
      (∀ ctx, gen input ctx = Except.ok r) →
        (a.chat engine gen summarizer dur input).2 = Except.ok r ∧
        (a.chat engine gen summarizer dur input).1.turn_count
            = a.turn_count + 1 ∧
        (is_multiple_of (a.turn_count + 1) a.summarize_every = true →
          (a.chat engine gen summarizer dur input).1.history
              = (summarizer
                  (chatHistoryAfterLogs a engine input r dur)).1) ∧
        (is_multiple_of (a.turn_count + 1) a.summarize_every = false →
          (a.chat engine gen summarizer dur input).1.history
              = chatHistoryAfterLogs a engine input r dur) := by
  intro a engine gen summarizer dur input r hgen
  rcases Bool.eq_false_or_eq_true
      (is_multiple_of (a.turn_count + 1) a.summarize_every) with hm | hm
  · have hc : a.chat engine gen summarizer dur input
        = ({ a with
              history := (summarizer
                (chatHistoryAfterLogs a engine input r dur)).1,
              turn_count := a.turn_count + 1 }, Except.ok r) := by
      simp [SmartAgent.chat, hgen, chatHistoryAfterLogs, hm]
    exact ⟨by rw [hc], by rw [hc], fun _ => by rw [hc],
      fun h => absurd hm (by simp [h])⟩
  · have hc : a.chat engine gen summarizer dur input
        = ({ a with
              history := chatHistoryAfterLogs a engine input r dur,
              turn_count := a.turn_count + 1 }, Except.ok r) := by
      simp [SmartAgent.chat, hgen, chatHistoryAfterLogs, hm]
    exact ⟨by rw [hc], by rw [hc],
      fun h => absurd h (by simp [hm]), fun _ => by rw [hc]⟩

/-- Claim C8 witness: with summarize_every 1 the summarization branch
is taken and a failing summarizer still leaves the chat returning the
generated reply. -/
theorem chat_summarize_fire_and_forget_witness :
    (((SmartAgent.new demoHistory).with_summarize_every 1).chat
        demoEngine (fun _ _ => Except.ok "reply")
        (fun h => (h, Except.error "summarize failed")) 0 "hi").2
      = Except.ok "reply" :=
  (chat_summarize_fire_and_forget
    ((SmartAgent.new demoHistory).with_summarize_every 1) demoEngine
    (fun _ _ => Except.ok "reply")
    (fun h => (h, Except.error "summarize failed")) 0 "hi" "reply"
    (fun _ => rfl)).1

/-- Claim C9: a Trace round-trips losslessly through its JSON record;
the embedding field is omitted from the serialized object entirely when
absent; a record without a metadata field parses with the empty
metadata map; and metadata lookup is invariant under reordering of the
map entries (keys unique). -/
theorem trace_json_roundtrip :
    (∀ t : Trace, Trace.fromJson (Trace.toJson t) = some t) ∧
    (∀ t : Trace, t.embedding = none →
      objHasKey (Trace.toJson t) "embedding" = false) ∧
    (∀ (id sid role content : String) (ca : Nat),
      Trace.fromJson (Value.obj
        [("id", Value.str id), ("session_id", Value.str sid),
         ("role", Value.str role), ("content", Value.str content),
         ("created_at", Value.num (Int.ofNat ca))])
        = some { id := id, session_id := sid, role := role,
                 content := content, metadata := [], created_at := ca,
                 embedding := none }) ∧
    (∀ (m1 m2 : Metadata), m1.Perm m2 → (m1.map Prod.fst).Nodup →
      ∀ k, mget m1 k = mget m2 k) := by
  refine ⟨?_, ?_, ?_, fun m1 m2 hp hnd k => mget_perm hp hnd k⟩
  · intro t
    cases t with
    | mk id sid role content md ca emb => cases emb <;> rfl
  · intro t h
    cases t with
    | mk id sid role content md ca emb =>
      cases emb
      · rfl
      · simp at h
  · intro id sid role content ca
    rfl

/-- Claim C9 witness: the omission part applied to a concrete trace
without an embedding. -/
theorem trace_json_roundtrip_witness :
    objHasKey (Trace.toJson demoT2) "embedding" = false :=
  trace_json_roundtrip.2.1 demoT2 rfl

/-- Claim C10: with summarize_every set to zero no chat call ever
triggers summarization and none faults — the counter checked is always
positive and the guarded multiplicity test is false for a positive
count and a zero divisor, so the result of chat is independent of the
summarizer. -/
theorem chat_summarize_every_zero_safe :
    (∀ n : Nat, is_multiple_of (n + 1) 0 = false) ∧
    (∀ (a : SmartAgent) (engine : Engine)
        (gen : String → List Message → Except String String)
        (s1 s2 : AgentHistory → AgentHistory × Except String String)
        (dur : Int) (input : String),
      a.summarize_every = 0 →
        a.chat engine gen s1 dur input
          = a.chat engine gen s2 dur input) := by
  constructor
  · intro n
    simp [is_multiple_of]
  · intro a engine gen s1 s2 dur input h0
    cases hg : gen input (contextMessages
        (a.history.search engine input a.recall_top_k false)) with
    | error e => simp [SmartAgent.chat, hg]
    | ok r => simp [SmartAgent.chat, hg, h0, is_multiple_of]

/-- Claim C10 witness: a concrete agent with summarize_every zero,
chatted with two different summarizers, produces identical results. -/
theorem chat_summarize_every_zero_safe_witness :
    ((SmartAgent.new demoHistory).with_summarize_every 0).chat
        demoEngine (fun _ _ => Except.ok "r")
        (fun h => (h, Except.error "x")) 0 "q"
      = ((SmartAgent.new demoHistory).with_summarize_every 0).chat
        demoEngine (fun _ _ => Except.ok "r")
        (fun h => (h, Except.ok "s")) 0 "q" :=
  chat_summarize_every_zero_safe.2
    ((SmartAgent.new demoHistory).with_summarize_every 0) demoEngine
    (fun _ _ => Except.ok "r") (fun h => (h, Except.error "x"))
    (fun h => (h, Except.ok "s")) 0 "q" rfl

end Agentsmith
